import Mathlib

/-!
Verification of the relationship-resolution query engine in
`cognite/experimental/_relationships_query.py`.

The Python module is shallowly embedded below.  Pure data classes become
structures; the collaborators (the `CogniteClient` listing/retrieval calls and
the concurrency helper `utils._concurrency.execute_tasks_concurrently`) become
explicit oracle functions and an explicit observation order; exceptions become
`Except` with an opaque exception value; the generator shape of `query` is
modelled by splitting the call-time step (which, by Python semantics for a
function whose body contains `yield`, executes none of the body) from the
first advance of the returned generator, which runs the whole body up to the
first `yield`.
-/

namespace RelQuery

/-- Opaque exception values (the embedding never inspects an exception, it
only propagates it, matching `raise tasks_summary.exceptions[0]`). -/
abbrev Exn := String

/-- A label attached to a resource; in the source each label is a dict with an
`externalId` entry (`label["externalId"]`, line 26). -/
structure Label where
  externalId : String
deriving DecidableEq, Repr

/-- A resolved resource (Asset | TimeSeries | Event | FileMetadata | Sequence).
Only the fields this module reads are modelled: `external_id` (lines 137, 139,
169) and the optional `labels` collection (lines 25-26). -/
structure Resource where
  external_id : String
  labels : Option (List Label)
deriving DecidableEq, Repr

/-- ResourceRef = namedtuple("ResourceRef", ["type", "external_id"]) (line 11). -/
structure ResourceRef where
  type : String
  external_id : String
deriving DecidableEq, Repr

/-- A relationship edge; only the four endpoint fields this module reads are
modelled (`rel.source_type`, `rel.source_external_id`, `rel.target_type`,
`rel.target_external_id`, lines 147-148 and 172-174). -/
structure Relationship where
  source_type : String
  source_external_id : String
  target_type : String
  target_external_id : String
deriving DecidableEq, Repr

/-- RelationshipWithResource (lines 37-41): an edge plus its two resolved
endpoint resources. -/
structure RelationshipWithResource where
  relationship : Relationship
  source_resource : Resource
  target_resource : Resource
deriving DecidableEq, Repr

/-- The three filter classes of the source as a closed sum:
`RelationshipFilterBase` (line 15), `RelationshipFilter(labels)` (line 20) and
`RelationshipFilterAll` (line 32). -/
inductive RelationshipFilter where
  | relationshipFilterBase : RelationshipFilter
  | relationshipFilter (labels : List String) : RelationshipFilter
  | relationshipFilterAll : RelationshipFilter
deriving DecidableEq, Repr

/-- Dynamic dispatch of `is_inside` over the three filter classes.
`RelationshipFilterBase.is_inside` returns False (line 17);
`RelationshipFilter.is_inside` (lines 24-29) decodes the resource labels and
tests intersection with the accepted label list; `RelationshipFilterAll`
returns True (lines 33-34). -/
def is_inside : RelationshipFilter → Resource → Bool
  | .relationshipFilterBase, _ => false
  | .relationshipFilter accepted, resource =>
    match resource.labels with
    | some ls =>
      let labels_decoded := ls.map Label.externalId
      labels_decoded.any fun lab => accepted.contains lab
    | none => false
  | .relationshipFilterAll, _ => true

/-- A call to an underlying per-type `retrieve_multiple` client method.  The
`type` field records which client API the bound callable belongs to
(`client.assets.retrieve_multiple`, ...); `ignore_unknown_ids` is `some b`
when the keyword was passed and `none` when it was omitted. -/
structure RetrieveCall where
  type : String
  external_ids : List String
  ignore_unknown_ids : Option Bool
deriving DecidableEq, Repr

/-- Fetcher (lines 44-53).  The stored underlying callable is identified by
the resource type (see `RetrieveCall.type`), so only the configuration flag is
kept here. -/
structure Fetcher where
  has_ignore_unknown_ids : Bool
deriving DecidableEq, Repr

/-- The class-declared method body at lines 49-53, as written: when
`has_ignore_unknown_ids` is set, pass `ignore_unknown_ids=True` to the
underlying callable, otherwise omit the keyword. -/
def Fetcher.retrieve_multiple_class_method (f : Fetcher) (type : String)
    (external_ids : List String) : RetrieveCall :=
  if f.has_ignore_unknown_ids then
    { type := type, external_ids := external_ids, ignore_unknown_ids := some true }
  else
    { type := type, external_ids := external_ids, ignore_unknown_ids := none }

/-- Python attribute lookup on a Fetcher instance: a same-named entry in the
instance `__dict__` shadows the class attribute (a plain function is a
non-data descriptor). -/
inductive FetcherAttr where
  | instance_callable : FetcherAttr
  | class_method : FetcherAttr
deriving DecidableEq, Repr

/-- Attribute resolution order for `fetcher.retrieve_multiple`. -/
def fetcher_attr_lookup (instance_dict_has_name : Bool) : FetcherAttr :=
  if instance_dict_has_name then .instance_callable else .class_method

/-- Fetcher.__init__ (lines 45-47) executes
`self.retrieve_multiple = retrieve_multiple`, so after construction the
instance `__dict__` holds the name `retrieve_multiple`. -/
def fetcher_instance_dict_has_retrieve_multiple : Bool := true

/-- The call `fetcher.retrieve_multiple(external_ids=external_ids)` issued at
line 156, resolved through Python attribute lookup: the instance attribute
(the raw underlying callable stored by `__init__`) shadows the class method of
the same name, so the underlying client method is invoked directly with only
the `external_ids` keyword. -/
def Fetcher.call_retrieve_multiple (f : Fetcher) (type : String)
    (external_ids : List String) : RetrieveCall :=
  match fetcher_attr_lookup fetcher_instance_dict_has_retrieve_multiple with
  | .instance_callable =>
    { type := type, external_ids := external_ids, ignore_unknown_ids := none }
  | .class_method => f.retrieve_multiple_class_method type external_ids

/-- The fetcher registry built in RelationshipsQuery.__init__ (lines 59-65),
in insertion order. -/
def fetchers : List (String × Fetcher) :=
  [("asset", { has_ignore_unknown_ids := true }),
   ("timeSeries", { has_ignore_unknown_ids := true }),
   ("file", { has_ignore_unknown_ids := false }),
   ("event", { has_ignore_unknown_ids := true }),
   ("sequence", { has_ignore_unknown_ids := false })]

/-- Opaque pass-through argument `labels` of `query` (a `LabelFilter`). -/
structure LabelFilter where
  raw : String
deriving DecidableEq, Repr

/-- Opaque pass-through element of the `data_set_ids` argument of `query`. -/
structure DataSetRef where
  raw : String
deriving DecidableEq, Repr

/-- The arguments of RelationshipsQuery.query (lines 67-78). -/
structure QueryArgs where
  sources : Option (List Resource)
  source_types : Option (List String)
  sources_filter : Option RelationshipFilter
  targets : Option (List Resource)
  target_types : Option (List String)
  targets_filter : Option RelationshipFilter
  data_set_ids : Option (List DataSetRef)
  labels : Option LabelFilter
  limit : Option Int
deriving DecidableEq, Repr

/-- A call to `client.relationships.list` with the arguments built at lines
136-144.  The Python `set([...])` of external ids is modelled as the
duplicate-free list `dedup` (set membership is what the collaborator consumes;
a set carries no order). -/
structure ListCall where
  source_external_ids : Option (List String)
  source_types : Option (List String)
  target_external_ids : Option (List String)
  target_types : Option (List String)
  labels : Option LabelFilter
  data_set_ids : Option (List DataSetRef)
  limit : Option Int
deriving DecidableEq, Repr

/-- The listing call built by `query` (lines 136-144). -/
def mk_list_call (args : QueryArgs) : ListCall :=
  { source_external_ids := args.sources.map fun rs => (rs.map Resource.external_id).dedup
    source_types := args.source_types
    target_external_ids := args.targets.map fun rs => (rs.map Resource.external_id).dedup
    target_types := args.target_types
    labels := args.labels
    data_set_ids := args.data_set_ids
    limit := args.limit }

/-- The external collaborators: the edge-listing API and the underlying
per-type batch-retrieval APIs (one bound method per resource type, here keyed
by the `type` field of the `RetrieveCall`).  Either may fail. -/
structure Client where
  relationships_list : ListCall → Except Exn (List Relationship)
  retrieve : RetrieveCall → Except Exn (List Resource)

/-- The endpoint references of all listed edges, sources then targets, before
deduplication (the two list comprehensions at lines 147-148). -/
def endpoint_refs (relations : List Relationship) : List ResourceRef :=
  (relations.map fun rel =>
    { type := rel.source_type, external_id := rel.source_external_id : ResourceRef })
    ++ relations.map fun rel =>
      { type := rel.target_type, external_id := rel.target_external_id : ResourceRef }

/-- resource_refs (lines 146-149): the set of distinct endpoint references,
modelled as the duplicate-free list keeping first occurrences. -/
def resource_refs (relations : List Relationship) : List ResourceRef :=
  (endpoint_refs relations).dedup

/-- One step of building the `defaultdict(list)` at lines 151-153: append the
external id of `ref` to the group of its type, creating the group (in
insertion order, as Python dicts preserve) if absent. -/
def add_ref (groups : List (String × List String)) (ref : ResourceRef) :
    List (String × List String) :=
  if groups.any fun g => g.fst = ref.type then
    groups.map fun g =>
      if g.fst = ref.type then (g.fst, g.snd ++ [ref.external_id]) else g
  else
    groups ++ [(ref.type, [ref.external_id])]

/-- resources_by_type (lines 151-153): external ids grouped by resource type,
as an association list in insertion order. -/
def resources_by_type (refs : List ResourceRef) : List (String × List String) :=
  refs.foldl add_ref []

/-- The task list handed to the concurrency helper (line 160): one
(type, external_ids) pair per group of `resources_by_type`. -/
def fetch_tasks (relations : List Relationship) : List (String × List String) :=
  resources_by_type (resource_refs relations)

/-- The dispatch performed at lines 159-161: the task list together with the
`max_workers=5` bound passed to `execute_tasks_concurrently`, which caps how
many of the dispatched tasks its worker pool runs concurrently. -/
structure Dispatch where
  tasks : List (String × List String)
  max_workers : Nat
deriving DecidableEq, Repr

/-- The concrete dispatch of `query`. -/
def fetch_dispatch (relations : List Relationship) : Dispatch :=
  { tasks := fetch_tasks relations, max_workers := 5 }

/-- fetch_per_type (lines 155-157): look the type up in the fetcher registry
(a failed dict lookup raises KeyError), issue the batch retrieval through the
fetcher, and tag every returned resource with the task's type. -/
def fetch_per_type (client : Client) :
    String × List String → Except Exn (List (String × Resource))
  | (type, external_ids) =>
    match fetchers.lookup type with
    | none => .error ("KeyError: " ++ type)
    | some f =>
      match client.retrieve (f.call_retrieve_multiple type external_ids) with
      | .error e => .error e
      | .ok resources => .ok (resources.map fun res => (type, res))

/-- The summary object returned by `execute_tasks_concurrently`: the
exceptions of the failed tasks and the results of the successful ones, both
in the order the tasks were observed to settle. -/
structure TasksSummary (α : Type) where
  exceptions : List Exn
  results : List α
deriving DecidableEq, Repr

/-- tasks_summary.joined_results() (line 167): concatenation of the
successful tasks' result lists. -/
def joined_results (s : TasksSummary (List α)) : List α :=
  s.results.flatten

/-- The tasks as observed under a completion order: `order` lists task indices
in the order the pool observes them settle (any order a scheduler could
produce is admitted, so every theorem below holds regardless of completion
order). -/
def observed (order : List Nat) (tasks : List τ) : List τ :=
  order.filterMap fun i => tasks.get? i

/-- The collaborator `utils._concurrency.execute_tasks_concurrently` (lines
159-161): run every task (each is a pure batch retrieval), collect the failed
tasks' exceptions and the successful tasks' results, in observation order.
The `max_workers` bound does not affect which results come back, only how
many tasks run at once, so it is carried but not consumed here. -/
def execute_tasks_concurrently (f : τ → Except Exn α) (tasks : List τ)
    (max_workers : Nat) (order : List Nat) : TasksSummary α :=
  let settled := (observed order tasks).map f
  { exceptions := settled.filterMap fun r =>
      match r with | .error e => some e | .ok _ => none
    results := settled.filterMap fun r =>
      match r with | .ok a => some a | .error _ => none }

/-- The fetch phase of `query` (lines 155-161) for a given edge listing and
completion order. -/
def run_fetch (client : Client) (relations : List Relationship)
    (order : List Nat) : TasksSummary (List (String × Resource)) :=
  execute_tasks_concurrently (fetch_per_type client) (fetch_dispatch relations).tasks
    (fetch_dispatch relations).max_workers order

/-- resources_by_ext_id (lines 166-169): the join index, a dict keyed by
ResourceRef where a later write to the same key overwrites an earlier one. -/
def build_index (items : List (String × Resource)) : ResourceRef → Option Resource :=
  items.foldl
    (fun m tr k =>
      if k = { type := tr.fst, external_id := tr.snd.external_id : ResourceRef } then
        some tr.snd
      else m k)
    fun _ => none

/-- The join index of a `query` run. -/
def join_index (client : Client) (relations : List Relationship)
    (order : List Nat) : ResourceRef → Option Resource :=
  build_index (joined_results (run_fetch client relations order))

/-- The per-edge emission step (lines 171-182): look both endpoints up in the
join index and yield a RelationshipWithResource only when both lookups
succeed and both filters accept the resolved resources. -/
def resolve_edge (sources_filter targets_filter : RelationshipFilter)
    (index : ResourceRef → Option Resource) (rel : Relationship) :
    Option RelationshipWithResource :=
  let source_resource :=
    index { type := rel.source_type, external_id := rel.source_external_id }
  let target_resource :=
    index { type := rel.target_type, external_id := rel.target_external_id }
  match source_resource, target_resource with
  | some s, some t =>
    if is_inside sources_filter s && is_inside targets_filter t then
      some { relationship := rel, source_resource := s, target_resource := t }
    else
      none
  | _, _ => none

/-- Events observable by the collaborators: the listing call and each
underlying batch-retrieval call. -/
inductive Event where
  | listing (c : ListCall) : Event
  | retrieval (c : RetrieveCall) : Event
deriving DecidableEq, Repr

/-- The retrieval call a task issues, when its registry lookup succeeds. -/
def retrieve_call_of (type : String) (external_ids : List String) : Option RetrieveCall :=
  (fetchers.lookup type).map fun f => f.call_retrieve_multiple type external_ids

/-- The retrieval events of the fetch phase, in observation order (a task
whose registry lookup raises KeyError issues no retrieval call). -/
def fetch_events (tasks : List (String × List String)) (order : List Nat) : List Event :=
  (observed order tasks).filterMap fun g =>
    (retrieve_call_of g.fst g.snd).map Event.retrieval

/-- The body of RelationshipsQuery.query (lines 133-182), run from its start
to the first `yield` boundary, returning the collaborator events it performs
together with its outcome: either the propagated exception (a listing failure
at lines 136-144 or the first observed fetch failure, re-raised as-is at
lines 163-164) or the list of resolved edges in listing order. -/
def query_traced (args : QueryArgs) (client : Client) (order : List Nat) :
    List Event × Except Exn (List RelationshipWithResource) :=
  let sources_filter := args.sources_filter.getD .relationshipFilterAll
  let targets_filter := args.targets_filter.getD .relationshipFilterAll
  let lc := mk_list_call args
  match client.relationships_list lc with
  | .error e => ([Event.listing lc], .error e)
  | .ok relations =>
    let summary := run_fetch client relations order
    let events := Event.listing lc :: fetch_events (fetch_dispatch relations).tasks order
    match summary.exceptions with
    | e :: _ => (events, .error e)
    | [] =>
      let index := build_index (joined_results summary)
      (events, .ok (relations.filterMap (resolve_edge sources_filter targets_filter index)))

/-- The outcome of a fully drained `query` run. -/
def query (args : QueryArgs) (client : Client) (order : List Nat) :
    Except Exn (List RelationshipWithResource) :=
  (query_traced args client order).snd

/-- The generator object returned by calling `query`: the suspended body,
holding the bound arguments, with none of the body executed yet. -/
structure QueryGenerator where
  args : QueryArgs
deriving DecidableEq, Repr

/-- Calling `query(...)`: since the function body contains `yield` (line
182), Python builds a generator and runs none of the body; the first
component is the (empty) trace of collaborator events performed at call
time. -/
def query_call (args : QueryArgs) : List Event × QueryGenerator :=
  ([], { args := args })

/-- The first advance of the returned generator runs the whole body up to the
first `yield` or its termination: the listing, the fetch fan-out, the failure
check and the join. -/
def first_advance (g : QueryGenerator) (client : Client) (order : List Nat) :
    List Event × Except Exn (List RelationshipWithResource) :=
  query_traced g.args client order

/-! Auxiliary notions used by the statements below. -/

/-- The type keys of a grouping, in order. -/
def keys (groups : List (String × List String)) : List String :=
  groups.map Prod.fst

/-- First-match lookup in a grouping (Python dict lookup; the groupings built
by `resources_by_type` have duplicate-free keys, so first match is the only
match). -/
def find_group : List (String × List String) → String → Option (List String)
  | [], _ => none
  | g :: gs, t => if g.fst = t then some g.snd else find_group gs t

/-- The external ids of the references of type `t`, in order. -/
def group_of (refs : List ResourceRef) (t : String) : List String :=
  (refs.filter fun r => r.type = t).map ResourceRef.external_id

/-- Appending a batch of ids to an optional existing group (`none` encodes an
absent group). -/
def extend_group (o : Option (List String)) (l : List String) : Option (List String) :=
  match o, l with
  | none, [] => none
  | o, l => some (o.getD [] ++ l)

/-! Concrete fixtures used by the witness theorems. -/

/-- A resolved asset carrying label "P". -/
def resource_X : Resource :=
  { external_id := "X", labels := some [{ externalId := "P" }] }

/-- An edge whose source and target are both asset "X". -/
def rel0 : Relationship :=
  { source_type := "asset", source_external_id := "X",
    target_type := "asset", target_external_id := "X" }

/-- A collaborator that lists exactly `rel0` and resolves every retrieval to
`resource_X`. -/
def client0 : Client :=
  { relationships_list := fun _ => .ok [rel0]
    retrieve := fun _ => .ok [resource_X] }

/-- A collaborator that lists exactly `rel0` and fails every retrieval. -/
def client_err : Client :=
  { relationships_list := fun _ => .ok [rel0]
    retrieve := fun _ => .error "PermissionError" }

/-- A collaborator that lists no edge at all. -/
def client_empty : Client :=
  { relationships_list := fun _ => .ok []
    retrieve := fun _ => .ok [] }

/-- Query arguments with every parameter omitted. -/
def args0 : QueryArgs :=
  { sources := none, source_types := none, sources_filter := none,
    targets := none, target_types := none, targets_filter := none,
    data_set_ids := none, labels := none, limit := none }

/-- The resolved output of running `query args0` against `client0`. -/
def out0 : List RelationshipWithResource :=
  [{ relationship := rel0, source_resource := resource_X, target_resource := resource_X }]

/-! Lemmas about the grouping `resources_by_type`. -/

theorem extend_group_nil (o : Option (List String)) : extend_group o [] = o := by
  cases o <;> simp [extend_group]

theorem extend_group_some (v : List String) (l : List String) :
    extend_group (some v) l = some (v ++ l) := by
  cases l <;> simp [extend_group]

theorem extend_group_single (o : Option (List String)) (x : String) :
    extend_group o [x] = some (o.getD [] ++ [x]) := by
  cases o <;> simp [extend_group]

theorem extend_group_assoc (o : Option (List String)) (x : String) (l : List String) :
    extend_group (extend_group o [x]) l = extend_group o (x :: l) := by
  cases o <;> simp [extend_group]

theorem find_group_isSome_iff (groups : List (String × List String)) (t : String) :
    (find_group groups t).isSome ↔ t ∈ keys groups := by
  induction groups with
  | nil => simp [find_group, keys]
  | cons g gs ih =>
    simp only [keys, List.map_cons, List.mem_cons, find_group]
    simp only [keys] at ih
    by_cases h : g.fst = t
    · simp [h]
    · simp only [if_neg h, ih]
      constructor
      · exact Or.inr
      · rintro (he | hm)
        · exact absurd he.symm h
        · exact hm

theorem any_fst_eq_iff (groups : List (String × List String)) (t : String) :
    (groups.any fun g => g.fst = t) = true ↔ t ∈ keys groups := by
  rw [List.any_eq_true]
  constructor
  · rintro ⟨g, hg, hfst⟩
    rw [decide_eq_true_eq] at hfst
    exact hfst ▸ List.mem_map_of_mem Prod.fst hg
  · intro hm
    obtain ⟨g, hg, hfst⟩ := List.mem_map.mp hm
    exact ⟨g, hg, decide_eq_true hfst⟩

theorem find_group_append (l1 l2 : List (String × List String)) (t : String) :
    find_group (l1 ++ l2) t =
      match find_group l1 t with
      | some v => some v
      | none => find_group l2 t := by
  induction l1 with
  | nil => simp [find_group]
  | cons g gs ih =>
    by_cases h : g.fst = t <;> simp [find_group, h, ih]

theorem find_group_append_ids (groups : List (String × List String)) (ref : ResourceRef)
    (t : String) :
    find_group
        (groups.map fun g =>
          if g.fst = ref.type then (g.fst, g.snd ++ [ref.external_id]) else g) t =
      if t = ref.type then (find_group groups t).map fun l => l ++ [ref.external_id]
      else find_group groups t := by
  induction groups with
  | nil => simp [find_group]
  | cons g gs ih =>
    by_cases hgy : g.fst = ref.type
    · by_cases hgt : g.fst = t
      · have hty : t = ref.type := hgt.symm.trans hgy
        simp [find_group, hgy, hgt, hty]
      · have hty : ¬t = ref.type := fun hc => hgt (hgy.trans hc.symm)
        have hrt : ¬ref.type = t := fun hc => hgt (hgy.trans hc)
        simp [find_group, hgy, hgt, hty, hrt, ih]
    · by_cases hgt : g.fst = t
      · have hty : ¬t = ref.type := fun hc => hgy (hgt.trans hc)
        simp [find_group, hgy, hgt, hty]
      · simp [find_group, hgy, hgt, ih]

theorem find_group_add_ref (groups : List (String × List String)) (ref : ResourceRef)
    (t : String) :
    find_group (add_ref groups ref) t =
      if t = ref.type then extend_group (find_group groups t) [ref.external_id]
      else find_group groups t := by
  unfold add_ref
  by_cases h : (groups.any fun g => g.fst = ref.type) = true
  · rw [if_pos h, find_group_append_ids]
    by_cases ht : t = ref.type
    · subst ht
      rw [if_pos rfl, if_pos rfl]
      have hmem : (find_group groups ref.type).isSome := by
        rw [find_group_isSome_iff]
        exact (any_fst_eq_iff groups ref.type).mp h
      cases hf : find_group groups ref.type with
      | none => rw [hf] at hmem; simp at hmem
      | some v => rw [extend_group_some]; rfl
    · rw [if_neg ht, if_neg ht]
  · rw [if_neg h, find_group_append]
    have hnone : find_group groups ref.type = none := by
      cases hf : find_group groups ref.type with
      | none => rfl
      | some v =>
        exfalso
        have hm : ref.type ∈ keys groups := by
          rw [← find_group_isSome_iff, hf]; rfl
        exact h ((any_fst_eq_iff groups ref.type).mpr hm)
    by_cases ht : t = ref.type
    · subst ht
      rw [hnone]
      simp [find_group, extend_group]
    · rw [if_neg ht]
      cases hf : find_group groups t with
      | none =>
        have hrt : ¬ref.type = t := fun hc => ht hc.symm
        simp [find_group, hrt]
      | some v => rfl

theorem keys_add_ref (groups : List (String × List String)) (ref : ResourceRef) :
    keys (add_ref groups ref) =
      if ref.type ∈ keys groups then keys groups else keys groups ++ [ref.type] := by
  unfold add_ref
  by_cases h : (groups.any fun g => g.fst = ref.type) = true
  · have hm : ref.type ∈ keys groups := (any_fst_eq_iff groups ref.type).mp h
    rw [if_pos h, if_pos hm]
    unfold keys
    rw [List.map_map]
    apply List.map_congr_left
    intro g _
    by_cases hf : g.fst = ref.type <;> simp [hf]
  · have hm : ref.type ∉ keys groups := fun hc => h ((any_fst_eq_iff groups ref.type).mpr hc)
    rw [if_neg h, if_neg hm]
    simp [keys]

theorem extend_group_none_cons (x : String) (l : List String) :
    extend_group none (x :: l) = some (x :: l) := rfl

theorem group_of_cons (r : ResourceRef) (refs : List ResourceRef) (t : String) :
    group_of (r :: refs) t =
      if r.type = t then r.external_id :: group_of refs t else group_of refs t := by
  by_cases h : r.type = t <;> simp [group_of, List.filter_cons, h]

theorem find_group_foldl (refs : List ResourceRef) :
    ∀ (groups : List (String × List String)) (t : String),
      find_group (refs.foldl add_ref groups) t =
        extend_group (find_group groups t) (group_of refs t) := by
  induction refs with
  | nil =>
    intro groups t
    simp [group_of, extend_group_nil]
  | cons r rs ih =>
    intro groups t
    rw [List.foldl_cons, ih, find_group_add_ref, group_of_cons]
    by_cases ht : t = r.type
    · rw [if_pos ht, if_pos ht.symm, extend_group_assoc]
    · rw [if_neg ht, if_neg fun hc => ht hc.symm]

theorem find_group_resources_by_type (refs : List ResourceRef) (t : String) :
    find_group (resources_by_type refs) t = extend_group none (group_of refs t) := by
  unfold resources_by_type
  rw [find_group_foldl]
  rfl

theorem keys_foldl_nodup (refs : List ResourceRef) :
    ∀ groups : List (String × List String),
      (keys groups).Nodup → (keys (refs.foldl add_ref groups)).Nodup := by
  induction refs with
  | nil => exact fun _ h => h
  | cons r rs ih =>
    intro groups h
    rw [List.foldl_cons]
    apply ih
    rw [keys_add_ref]
    by_cases hm : r.type ∈ keys groups
    · rw [if_pos hm]; exact h
    · rw [if_neg hm]
      exact h.append (List.nodup_singleton _)
        fun a ha hb => hm (List.mem_singleton.mp hb ▸ ha)

theorem keys_resources_by_type_nodup (refs : List ResourceRef) :
    (keys (resources_by_type refs)).Nodup :=
  keys_foldl_nodup refs [] (by simp [keys])

theorem group_of_eq_nil_iff (refs : List ResourceRef) (t : String) :
    group_of refs t = [] ↔ ∀ r ∈ refs, ¬r.type = t := by
  simp [group_of]

theorem mem_keys_resources_by_type (refs : List ResourceRef) (t : String) :
    t ∈ keys (resources_by_type refs) ↔ ∃ r ∈ refs, r.type = t := by
  rw [← find_group_isSome_iff, find_group_resources_by_type]
  constructor
  · intro hs
    by_contra hne
    push_neg at hne
    rw [(group_of_eq_nil_iff refs t).mpr hne] at hs
    simp [extend_group] at hs
  · intro he
    cases hg : group_of refs t with
    | nil =>
      obtain ⟨r, hr, hrt⟩ := he
      exact absurd hrt ((group_of_eq_nil_iff refs t).mp hg r hr)
    | cons x xs => rw [extend_group_none_cons]; rfl

theorem find_group_eq_of_mem (groups : List (String × List String))
    (h : (keys groups).Nodup) :
    ∀ g ∈ groups, find_group groups g.fst = some g.snd := by
  induction groups with
  | nil => intro g hg; simp at hg
  | cons a gs ih =>
    have hk : keys (a :: gs) = a.fst :: keys gs := by simp [keys]
    rw [hk, List.nodup_cons] at h
    intro g hg
    rcases List.mem_cons.mp hg with rfl | hgs
    · simp [find_group]
    · have hne : ¬a.fst = g.fst :=
        fun hc => h.1 (hc ▸ List.mem_map_of_mem Prod.fst hgs)
      simp only [find_group, if_neg hne]
      exact ih h.2 g hgs

theorem group_of_nodup (refs : List ResourceRef) (h : refs.Nodup) (t : String) :
    (group_of refs t).Nodup := by
  unfold group_of
  apply List.Nodup.map_on
  · intro x hx y hy hxy
    have hxt : x.type = t := by simpa using (List.mem_filter.mp hx).2
    have hyt : y.type = t := by simpa using (List.mem_filter.mp hy).2
    have hty : x.type = y.type := hxt.trans hyt.symm
    cases x
    cases y
    cases hty
    cases hxy
    rfl
  · exact h.filter _

theorem mem_group_of (refs : List ResourceRef) (t x : String) :
    x ∈ group_of refs t ↔ ({ type := t, external_id := x } : ResourceRef) ∈ refs := by
  unfold group_of
  rw [List.mem_map]
  constructor
  · rintro ⟨r, hr, rfl⟩
    have hmem := (List.mem_filter.mp hr).1
    have ht : r.type = t := by simpa using (List.mem_filter.mp hr).2
    have hre : ({ type := t, external_id := r.external_id } : ResourceRef) = r := by
      cases r; cases ht; rfl
    rw [hre]
    exact hmem
  · intro hm
    exact ⟨{ type := t, external_id := x }, List.mem_filter.mpr ⟨hm, by simp⟩, rfl⟩

theorem fetch_tasks_group (relations : List Relationship) (g : String × List String)
    (hg : g ∈ fetch_tasks relations) :
    g.snd = group_of (resource_refs relations) g.fst ∧ g.snd ≠ [] := by
  have h1 := find_group_eq_of_mem (fetch_tasks relations)
    (keys_resources_by_type_nodup (resource_refs relations)) g hg
  have h2 := find_group_resources_by_type (resource_refs relations) g.fst
  unfold fetch_tasks at h1
  rw [h1] at h2
  cases hg2 : group_of (resource_refs relations) g.fst with
  | nil => rw [hg2] at h2; simp [extend_group] at h2
  | cons x xs =>
    rw [hg2, extend_group_none_cons] at h2
    have heq : x :: xs = g.snd := Option.some.inj h2.symm
    refine ⟨heq.symm, ?_⟩
    rw [← heq]
    simp

theorem length_filter_fst (groups : List (String × List String)) (t : String)
    (h : (keys groups).Nodup) :
    (groups.filter fun g => g.fst = t).length = if t ∈ keys groups then 1 else 0 := by
  induction groups with
  | nil => simp [keys]
  | cons g gs ih =>
    have hk : keys (g :: gs) = g.fst :: keys gs := by simp [keys]
    rw [hk, List.nodup_cons] at h
    by_cases hg : g.fst = t
    · have hnm : t ∉ keys gs := hg ▸ h.1
      have h2 := ih h.2
      rw [if_neg hnm] at h2
      simp [List.filter_cons, hg, hk, h2]
    · have hne : ¬t = g.fst := fun hc => hg hc.symm
      have h2 := ih h.2
      simp [List.filter_cons, hg, hk, h2, hne]

theorem mem_endpoint_types_iff (relations : List Relationship) (t : String) :
    t ∈ (endpoint_refs relations).map ResourceRef.type ↔
      ∃ r ∈ resource_refs relations, r.type = t := by
  rw [List.mem_map]
  unfold resource_refs
  constructor
  · rintro ⟨r, hr, rfl⟩
    exact ⟨r, List.mem_dedup.mpr hr, rfl⟩
  · rintro ⟨r, hr, rfl⟩
    exact ⟨r, List.mem_dedup.mp hr, rfl⟩

/-! Lemmas unfolding a `query` run. -/

theorem query_eq_ok (args : QueryArgs) (client : Client) (order : List Nat)
    (relations : List Relationship)
    (hlist : client.relationships_list (mk_list_call args) = .ok relations)
    (hexn : (run_fetch client relations order).exceptions = []) :
    query args client order =
      .ok (relations.filterMap
        (resolve_edge (args.sources_filter.getD .relationshipFilterAll)
          (args.targets_filter.getD .relationshipFilterAll)
          (join_index client relations order))) := by
  simp only [query, query_traced, hlist, hexn, join_index]

theorem query_eq_error (args : QueryArgs) (client : Client) (order : List Nat)
    (relations : List Relationship) (e : Exn) (rest : List Exn)
    (hlist : client.relationships_list (mk_list_call args) = .ok relations)
    (hexn : (run_fetch client relations order).exceptions = e :: rest) :
    query args client order = .error e := by
  simp only [query, query_traced, hlist, hexn]

theorem resolve_edge_eq_some_iff (sf tf : RelationshipFilter)
    (index : ResourceRef → Option Resource) (rel : Relationship)
    (r : RelationshipWithResource) :
    resolve_edge sf tf index rel = some r ↔
      ∃ s t,
        index { type := rel.source_type, external_id := rel.source_external_id } = some s ∧
        is_inside sf s = true ∧
        index { type := rel.target_type, external_id := rel.target_external_id } = some t ∧
        is_inside tf t = true ∧
        r = { relationship := rel, source_resource := s, target_resource := t } := by
  simp only [resolve_edge]
  cases hs : index { type := rel.source_type, external_id := rel.source_external_id } with
  | none => simp
  | some s =>
    cases ht : index { type := rel.target_type, external_id := rel.target_external_id } with
    | none => simp
    | some t =>
      dsimp only
      by_cases hin : is_inside sf s = true ∧ is_inside tf t = true
      · rw [if_pos (by rw [hin.1, hin.2]; rfl)]
        constructor
        · rintro h
          exact ⟨s, t, rfl, hin.1, rfl, hin.2, (Option.some.inj h).symm⟩
        · rintro ⟨s', t', hs', _, ht', _, rfl⟩
          rw [Option.some.inj hs', Option.some.inj ht']
      · rw [if_neg (by intro hc; rw [Bool.and_eq_true] at hc; exact hin hc)]
        constructor
        · rintro h; exact absurd h (by simp)
        · rintro ⟨s', t', hs', hins, ht', hint, rfl⟩
          exact absurd ⟨(Option.some.inj hs') ▸ hins, (Option.some.inj ht') ▸ hint⟩ hin

theorem mem_resolved_iff (sf tf : RelationshipFilter)
    (index : ResourceRef → Option Resource) (rels : List Relationship)
    (rel : Relationship) :
    (∃ r ∈ rels.filterMap (resolve_edge sf tf index), r.relationship = rel) ↔
      (rel ∈ rels ∧
       ∃ s t,
         index { type := rel.source_type, external_id := rel.source_external_id } = some s ∧
         is_inside sf s = true ∧
         index { type := rel.target_type, external_id := rel.target_external_id } = some t ∧
         is_inside tf t = true) := by
  constructor
  · rintro ⟨r, hr, hrel⟩
    obtain ⟨a, ha, hfa⟩ := List.mem_filterMap.mp hr
    obtain ⟨s, t, hs, hins, ht, hint, rfl⟩ := (resolve_edge_eq_some_iff sf tf index a r).mp hfa
    have hae : a = rel := hrel
    subst hae
    exact ⟨ha, s, t, hs, hins, ht, hint⟩
  · rintro ⟨hmem, s, t, hs, hins, ht, hint⟩
    refine ⟨{ relationship := rel, source_resource := s, target_resource := t },
      List.mem_filterMap.mpr ⟨rel, hmem, ?_⟩, rfl⟩
    exact (resolve_edge_eq_some_iff sf tf index rel _).mpr ⟨s, t, hs, hins, ht, hint, rfl⟩

theorem query_congr (args args' : QueryArgs) (client : Client) (order : List Nat)
    (hlc : mk_list_call args = mk_list_call args')
    (hsf : args.sources_filter.getD .relationshipFilterAll =
      args'.sources_filter.getD .relationshipFilterAll)
    (htf : args.targets_filter.getD .relationshipFilterAll =
      args'.targets_filter.getD .relationshipFilterAll) :
    query args client order = query args' client order := by
  simp only [query, query_traced, hlc, hsf, htf]

theorem observed_nil {τ : Type} (order : List Nat) : observed (τ := τ) order [] = [] := by
  unfold observed
  induction order with
  | nil => rfl
  | cons i rest ih => simp [List.filterMap_cons, ih]

theorem filterMap_map_sublist {α β : Type} (f : α → Option β) (g : β → α)
    (h : ∀ a b, f a = some b → g b = a) :
    ∀ l : List α, ((l.filterMap f).map g).Sublist l := by
  intro l
  induction l with
  | nil => simp
  | cons a l ih =>
    cases hfa : f a with
    | none =>
      rw [List.filterMap_cons_none hfa]
      exact ih.cons a
    | some b =>
      rw [List.filterMap_cons_some hfa, List.map_cons, h a b hfa]
      exact ih.cons₂ a

/-! The claims. -/

/-- C1 (join-correctness): for a query run whose listing returned `relations`
and whose fetch phase raised no exception, the run succeeds (no error is
reported) and a listed edge underlies an emitted resolved edge iff its source
reference and its target reference both have entries in the join index built
from the fetch results, the sources filter accepts the resolved source
resource, and the targets filter accepts the resolved target resource; every
edge failing any of these conditions is silently absent from the output. -/
theorem C1_join_correctness (args : QueryArgs) (client : Client) (order : List Nat)
    (relations : List Relationship)
    (hlist : client.relationships_list (mk_list_call args) = .ok relations)
    (hexn : (run_fetch client relations order).exceptions = []) :
    ∃ out, query args client order = .ok out ∧
      ∀ rel, (∃ r ∈ out, r.relationship = rel) ↔
        (rel ∈ relations ∧
         ∃ s t,
           join_index client relations order
             { type := rel.source_type, external_id := rel.source_external_id } = some s ∧
           is_inside (args.sources_filter.getD .relationshipFilterAll) s = true ∧
           join_index client relations order
             { type := rel.target_type, external_id := rel.target_external_id } = some t ∧
           is_inside (args.targets_filter.getD .relationshipFilterAll) t = true) := by
  refine ⟨_, query_eq_ok args client order relations hlist hexn, ?_⟩
  intro rel
  exact mem_resolved_iff _ _ _ relations rel

/-- Witness for C1 at a concrete run: one listed edge, both endpoints the
asset "X", resolved by `client0`, no filters. -/
theorem C1_join_correctness_witness :
    ∃ out, query args0 client0 [0] = .ok out ∧
      ∀ rel, (∃ r ∈ out, r.relationship = rel) ↔
        (rel ∈ [rel0] ∧
         ∃ s t,
           join_index client0 [rel0] [0]
             { type := rel.source_type, external_id := rel.source_external_id } = some s ∧
           is_inside (args0.sources_filter.getD .relationshipFilterAll) s = true ∧
           join_index client0 [rel0] [0]
             { type := rel.target_type, external_id := rel.target_external_id } = some t ∧
           is_inside (args0.targets_filter.getD .relationshipFilterAll) t = true) :=
  C1_join_correctness args0 client0 [0] [rel0] rfl rfl

/-- C2 (code bug): Fetcher.__init__ stores the underlying callable in the
instance under the name `retrieve_multiple`, shadowing the class method of
the same name, so the call issued by the fetch phase always reaches the
underlying client method with the ignore-unknown-ids keyword omitted — even
for the types registered as tolerant (e.g. asset) — while the class-declared
wrapper, which would pass `ignore_unknown_ids=True` for those types, is
unreachable. -/
theorem C2_ignore_unknown_ids_shadowed :
    (∀ (f : Fetcher) (type : String) (external_ids : List String),
        (f.call_retrieve_multiple type external_ids).ignore_unknown_ids = none) ∧
    (Fetcher.retrieve_multiple_class_method { has_ignore_unknown_ids := true }
        "asset" ["x"]).ignore_unknown_ids = some true ∧
    fetchers.lookup "asset" = some { has_ignore_unknown_ids := true } :=
  ⟨fun _ _ _ => rfl, rfl, by decide⟩

/-- C3 (atomicity of failure): if the fetch phase settles with at least one
exception, `query` raises the first observed exception itself, unwrapped, and
yields no resolved edge at all. -/
theorem C3_failure_atomicity (args : QueryArgs) (client : Client) (order : List Nat)
    (relations : List Relationship) (e : Exn) (rest : List Exn)
    (hlist : client.relationships_list (mk_list_call args) = .ok relations)
    (hexn : (run_fetch client relations order).exceptions = e :: rest) :
    query args client order = .error e ∧
    ∀ out, query args client order ≠ .ok out := by
  have h := query_eq_error args client order relations e rest hlist hexn
  exact ⟨h, fun out hc => by rw [h] at hc; cases hc⟩

/-- Witness for C3: a run whose only fetch task fails with a permission
error. -/
theorem C3_failure_atomicity_witness :
    query args0 client_err [0] = .error "PermissionError" ∧
    ∀ out, query args0 client_err [0] ≠ .ok out :=
  C3_failure_atomicity args0 client_err [0] [rel0] "PermissionError" [] rfl rfl

/-- C4 (deduplication): the task list carries exactly one fetch call per
resource type occurring among the endpoints of the listed edges, and the
external-id collection of that call holds each distinct external id of that
type exactly once — an id referenced by many edges, or as both a source and
a target of the same type, appears only once. -/
theorem C4_dedup_fetch (relations : List Relationship) (t : String) :
    (((fetch_tasks relations).filter fun g => g.fst = t).length =
      if t ∈ (endpoint_refs relations).map ResourceRef.type then 1 else 0) ∧
    ∀ ids, (t, ids) ∈ fetch_tasks relations →
      ids.Nodup ∧ ∀ x, x ∈ ids ↔
        ({ type := t, external_id := x } : ResourceRef) ∈ endpoint_refs relations := by
  constructor
  · unfold fetch_tasks
    rw [length_filter_fst _ _ (keys_resources_by_type_nodup _)]
    by_cases hm : t ∈ (endpoint_refs relations).map ResourceRef.type
    · rw [if_pos hm, if_pos ((mem_keys_resources_by_type _ t).mpr
        ((mem_endpoint_types_iff relations t).mp hm))]
    · rw [if_neg hm, if_neg fun hc => hm ((mem_endpoint_types_iff relations t).mpr
        ((mem_keys_resources_by_type _ t).mp hc))]
  · intro ids hmem
    have hgrp := fetch_tasks_group relations (t, ids) hmem
    have h1 : ids = group_of (resource_refs relations) t := hgrp.1
    constructor
    · rw [h1]
      exact group_of_nodup _ (List.nodup_dedup _) t
    · intro x
      rw [h1, mem_group_of]
      unfold resource_refs
      exact List.mem_dedup

/-- Witness for C4 at one edge referencing asset "X" as both endpoints: the
single asset task carries the id once, and exactly one asset call exists. -/
theorem C4_dedup_fetch_witness :
    ((["X"] : List String).Nodup ∧
      ("X" ∈ (["X"] : List String) ↔
        ({ type := "asset", external_id := "X" } : ResourceRef) ∈ endpoint_refs [rel0])) ∧
    (((fetch_tasks [rel0]).filter fun g => g.fst = "asset").length =
      if "asset" ∈ (endpoint_refs [rel0]).map ResourceRef.type then 1 else 0) := by
  have h := C4_dedup_fetch [rel0] "asset"
  have h2 := h.2 ["X"] (by decide)
  exact ⟨⟨h2.1, h2.2 "X"⟩, h.1⟩

/-- C5 (order preservation): the edges underlying the emitted resolved edges
form a subsequence of the listed edge collection, in the same relative
order, for every input and for every completion order of the fetch tasks. -/
theorem C5_order_preservation (args : QueryArgs) (client : Client) (order : List Nat)
    (relations : List Relationship) (out : List RelationshipWithResource)
    (hlist : client.relationships_list (mk_list_call args) = .ok relations)
    (hout : query args client order = .ok out) :
    (out.map RelationshipWithResource.relationship).Sublist relations := by
  cases hexn : (run_fetch client relations order).exceptions with
  | cons e rest =>
    rw [query_eq_error args client order relations e rest hlist hexn] at hout
    cases hout
  | nil =>
    rw [query_eq_ok args client order relations hlist hexn] at hout
    have he := Except.ok.inj hout
    rw [← he]
    apply filterMap_map_sublist
    intro a b hfb
    obtain ⟨s, t, _, _, _, _, rfl⟩ := (resolve_edge_eq_some_iff _ _ _ a b).mp hfb
    rfl

/-- Witness for C5 at a concrete successful run. -/
theorem C5_order_preservation_witness :
    (out0.map RelationshipWithResource.relationship).Sublist [rel0] :=
  C5_order_preservation args0 client0 [0] [rel0] out0 rfl rfl

/-- C6 (label filter): the label-membership filter accepts a resolved
resource iff the resource carries a label collection (an absent collection
yields false) and at least one of its label external ids belongs to the
filter's accepted label set. -/
theorem C6_label_filter (resource : Resource) (accepted : List String) :
    is_inside (.relationshipFilter accepted) resource = true ↔
      ∃ ls, resource.labels = some ls ∧ ∃ lab ∈ ls, lab.externalId ∈ accepted := by
  cases hl : resource.labels with
  | none => simp [is_inside, hl]
  | some ls => simp [is_inside, hl, List.any_eq_true]

/-- C7 (default filters): the accept-all filter accepts every resource; when
`sources_filter` is omitted, `query` behaves as if the accept-all filter had
been supplied for the source endpoint, whatever the targets filter is, and
symmetrically when `targets_filter` is omitted; consequently, with both
omitted, a run whose listing and fetch phase succeed emits an edge iff both
of its endpoints resolve in the join index — an edge is never dropped by
filtering. -/
theorem C7_default_filters (args : QueryArgs) (client : Client) (order : List Nat) :
    (∀ res, is_inside .relationshipFilterAll res = true) ∧
    (args.sources_filter = none →
      query args client order =
        query { args with sources_filter := some .relationshipFilterAll } client order) ∧
    (args.targets_filter = none →
      query args client order =
        query { args with targets_filter := some .relationshipFilterAll } client order) ∧
    (args.sources_filter = none → args.targets_filter = none →
      ∀ relations,
        client.relationships_list (mk_list_call args) = .ok relations →
        (run_fetch client relations order).exceptions = [] →
        ∃ out, query args client order = .ok out ∧
          ∀ rel, (∃ r ∈ out, r.relationship = rel) ↔
            rel ∈ relations ∧
            (join_index client relations order
              { type := rel.source_type, external_id := rel.source_external_id }).isSome ∧
            (join_index client relations order
              { type := rel.target_type, external_id := rel.target_external_id }).isSome) := by
  refine ⟨fun _ => rfl, ?_, ?_, ?_⟩
  · intro hsf
    exact query_congr args _ client order rfl (by rw [hsf]; rfl) rfl
  · intro htf
    exact query_congr args _ client order rfl rfl (by rw [htf]; rfl)
  · intro hsf htf relations hlist hexn
    have hsf' : args.sources_filter.getD .relationshipFilterAll = .relationshipFilterAll := by
      rw [hsf]; rfl
    have htf' : args.targets_filter.getD .relationshipFilterAll = .relationshipFilterAll := by
      rw [htf]; rfl
    have hq := query_eq_ok args client order relations hlist hexn
    rw [hsf', htf'] at hq
    refine ⟨_, hq, ?_⟩
    intro rel
    rw [mem_resolved_iff]
    constructor
    · rintro ⟨hm, s, t, hs, _, ht, _⟩
      exact ⟨hm, by rw [hs]; rfl, by rw [ht]; rfl⟩
    · rintro ⟨hm, hs, ht⟩
      obtain ⟨s, hs'⟩ := Option.isSome_iff_exists.mp hs
      obtain ⟨t, ht'⟩ := Option.isSome_iff_exists.mp ht
      exact ⟨hm, s, t, hs', rfl, ht', rfl⟩

/-- Witness for C7 at a concrete run: each omitted filter individually
replaced by accept-all leaves the outcome unchanged, and with both omitted
the output is characterised by endpoint resolution alone. -/
theorem C7_default_filters_witness :
    (query args0 client0 [0] =
      query { args0 with sources_filter := some .relationshipFilterAll } client0 [0]) ∧
    (query args0 client0 [0] =
      query { args0 with targets_filter := some .relationshipFilterAll } client0 [0]) ∧
    ∃ out, query args0 client0 [0] = .ok out ∧
      ∀ rel, (∃ r ∈ out, r.relationship = rel) ↔
        rel ∈ [rel0] ∧
        (join_index client0 [rel0] [0]
          { type := rel.source_type, external_id := rel.source_external_id }).isSome ∧
        (join_index client0 [rel0] [0]
          { type := rel.target_type, external_id := rel.target_external_id }).isSome :=
  ⟨(C7_default_filters args0 client0 [0]).2.1 rfl,
   (C7_default_filters args0 client0 [0]).2.2.1 rfl,
   (C7_default_filters args0 client0 [0]).2.2.2 rfl rfl [rel0] rfl rfl⟩

/-- C8 (no empty fetch): every dispatched fetch task carries a non-empty
external-id collection, and when the listing returns no edges no fetch task
is dispatched at all and the query output is empty. -/
theorem C8_no_empty_fetch (args : QueryArgs) (client : Client) (order : List Nat)
    (relations : List Relationship)
    (hlist : client.relationships_list (mk_list_call args) = .ok relations) :
    (∀ g ∈ (fetch_dispatch relations).tasks, g.snd ≠ []) ∧
    (relations = [] →
      (fetch_dispatch relations).tasks = [] ∧ query args client order = .ok []) := by
  constructor
  · intro g hg
    exact (fetch_tasks_group relations g hg).2
  · rintro rfl
    refine ⟨rfl, ?_⟩
    have htasks : (fetch_dispatch ([] : List Relationship)).tasks = [] := rfl
    have hexn : (run_fetch client [] order).exceptions = [] := by
      unfold run_fetch execute_tasks_concurrently
      rw [htasks, observed_nil]
      rfl
    rw [query_eq_ok args client order [] hlist hexn]
    rfl

/-- Witness for C8 at a listing that returns no edges. -/
theorem C8_no_empty_fetch_witness :
    (fetch_dispatch ([] : List Relationship)).tasks = [] ∧
    query args0 client_empty [0] = .ok [] :=
  (C8_no_empty_fetch args0 client_empty [0] [] rfl).2 rfl

/-- C9 (laziness): calling `query` performs no collaborator call and raises
nothing — it merely builds the generator — while the first advance of the
generator runs the whole pipeline: its trace starts with the listing call
and, when the listing succeeds, consists of the listing followed by exactly
the per-type retrieval calls of the dispatched tasks. -/
theorem C9_lazy_generator (args : QueryArgs) (client : Client) (order : List Nat) :
    (query_call args).fst = [] ∧
    first_advance (query_call args).snd client order = query_traced args client order ∧
    (query_traced args client order).fst.head? = some (Event.listing (mk_list_call args)) ∧
    ∀ relations, client.relationships_list (mk_list_call args) = .ok relations →
      (query_traced args client order).fst =
        Event.listing (mk_list_call args) :: fetch_events (fetch_dispatch relations).tasks order := by
  refine ⟨rfl, rfl, ?_, ?_⟩
  · cases hl : client.relationships_list (mk_list_call args) with
    | error e => simp [query_traced, hl]
    | ok relations =>
      cases hexn : (run_fetch client relations order).exceptions with
      | nil => simp [query_traced, hl, hexn]
      | cons e rest => simp [query_traced, hl, hexn]
  · intro relations hl
    cases hexn : (run_fetch client relations order).exceptions with
    | nil => simp [query_traced, hl, hexn]
    | cons e rest => simp [query_traced, hl, hexn]

/-- Witness for C9 at a concrete run. -/
theorem C9_lazy_generator_witness :
    (query_call args0).fst = [] ∧
    (query_traced args0 client0 [0]).fst =
      Event.listing (mk_list_call args0) :: fetch_events (fetch_dispatch [rel0]).tasks [0] :=
  ⟨(C9_lazy_generator args0 client0 [0]).1,
   (C9_lazy_generator args0 client0 [0]).2.2.2 [rel0] rfl⟩

/-- C10 (bounded concurrency): the dispatch carries at most one task per
resource type — exactly one for each type present among the endpoints — its
worker-pool bound is the fixed 5, and whenever every endpoint type belongs
to the closed registry enumeration the number of dispatched tasks is at most
5. -/
theorem C10_bounded_dispatch (relations : List Relationship) (t : String) :
    (((fetch_dispatch relations).tasks.filter fun g => g.fst = t).length ≤ 1) ∧
    ((((fetch_dispatch relations).tasks.filter fun g => g.fst = t).length = 1) ↔
      t ∈ (endpoint_refs relations).map ResourceRef.type) ∧
    (fetch_dispatch relations).max_workers = 5 ∧
    ((∀ r ∈ endpoint_refs relations, r.type ∈ fetchers.map Prod.fst) →
      (fetch_dispatch relations).tasks.length ≤ 5) := by
  have hcount :
      ((fetch_dispatch relations).tasks.filter fun g => g.fst = t).length =
        if t ∈ (endpoint_refs relations).map ResourceRef.type then 1 else 0 := by
    show ((fetch_tasks relations).filter fun g => g.fst = t).length = _
    unfold fetch_tasks
    rw [length_filter_fst _ _ (keys_resources_by_type_nodup _)]
    by_cases hm : t ∈ (endpoint_refs relations).map ResourceRef.type
    · rw [if_pos hm, if_pos ((mem_keys_resources_by_type _ t).mpr
        ((mem_endpoint_types_iff relations t).mp hm))]
    · rw [if_neg hm, if_neg fun hc => hm ((mem_endpoint_types_iff relations t).mpr
        ((mem_keys_resources_by_type _ t).mp hc))]
  refine ⟨?_, ?_, rfl, ?_⟩
  · rw [hcount]
    by_cases hm : t ∈ (endpoint_refs relations).map ResourceRef.type <;> simp [hm]
  · rw [hcount]
    by_cases hm : t ∈ (endpoint_refs relations).map ResourceRef.type <;> simp [hm]
  · intro hall
    have hsub : keys (fetch_tasks relations) ⊆ fetchers.map Prod.fst := by
      intro k hk
      unfold fetch_tasks at hk
      obtain ⟨r, hr, hrt⟩ := (mem_keys_resources_by_type _ k).mp hk
      have hre : r ∈ endpoint_refs relations := by
        unfold resource_refs at hr
        exact List.mem_dedup.mp hr
      exact hrt ▸ hall r hre
    have hnd : (keys (fetch_tasks relations)).Nodup := by
      unfold fetch_tasks
      exact keys_resources_by_type_nodup _
    have hlen := (hnd.subperm hsub).length_le
    calc (fetch_dispatch relations).tasks.length
        = (keys (fetch_tasks relations)).length := (List.length_map _ _).symm
      _ ≤ (fetchers.map Prod.fst).length := hlen
      _ = 5 := rfl

/-- Witness for C10 at a concrete dispatch whose endpoint types all belong
to the registry enumeration. -/
theorem C10_bounded_dispatch_witness :
    (fetch_dispatch [rel0]).tasks.length ≤ 5 ∧
    (fetch_dispatch [rel0]).max_workers = 5 :=
  ⟨(C10_bounded_dispatch [rel0] "asset").2.2.2 (by decide),
   (C10_bounded_dispatch [rel0] "asset").2.2.1⟩

end RelQuery
